import Mathlib

/-!
Verification of the SEC filing acquisition and normalization layer
(`sec_api.ts`: `fetchFilingContent`, `getRecentFilings`, `getFilingsByDateRange`,
`getQuartersInRange`) and the chat route's `researcher` tool guardrails
(`src/app/api/chat/route.ts`), as a shallow embedding in Lean.

Network effects (axios) are modelled by an explicit `SecWorld` of oracles; JS
`Date` values are modelled by an `Option Nat` day number (`none` = Invalid
Date / NaN, whose comparisons are all false, as in JS); the cheerio/turndown
pipeline is modelled at block granularity, with the two custom replacement
rules (`betterTables`, `cleanLists`) translated in full.
-/

deriving instance DecidableEq for Except

namespace SecApi

/-- JS `String.prototype.trim`: strip leading and trailing whitespace.
Reimplemented structurally over the character list (rather than through
`String.trim`) so that concrete inputs evaluate inside proofs. -/
def jsTrim (s : String) : String :=
  String.mk (((s.toList.dropWhile Char.isWhitespace).reverse.dropWhile
    Char.isWhitespace).reverse)

/-- Character-list core of `jsSplit`: split at every occurrence of the
separator character. -/
def splitOnCharList (sep : Char) : List Char → List (List Char)
  | [] => [[]]
  | c :: cs =>
    if c = sep then [] :: splitOnCharList sep cs
    else
      match splitOnCharList sep cs with
      | [] => [[c]]
      | l :: ls => (c :: l) :: ls

/-- JS `String.prototype.split` with a single-character separator
(`String.splitOn`, reimplemented structurally so that concrete inputs
evaluate inside proofs). Like both, `"".split` yields `[""]`. -/
def jsSplit (sep : Char) (s : String) : List String :=
  (splitOnCharList sep s.toList).map String.mk

/-- Digit-list numeral parser (`String.toNat?` reimplemented
structurally): `none` unless the string is a non-empty run of decimal
digits. -/
def parseNatDigits (s : String) : Option Nat :=
  if s.toList.length = 0 || !(s.toList.all Char.isDigit) then none
  else some (s.toList.foldl (fun n c => n * 10 + (c.toNat - '0'.toNat)) 0)

/-- JS `replace(/\s+/g, ' ')`: collapse every maximal run of whitespace
characters into a single space. -/
def collapseWs (s : String) : String :=
  String.mk (go s.toList false)
where
  go : List Char → Bool → List Char
  | [], _ => []
  | c :: cs, inRun =>
    if c.isWhitespace then
      if inRun then go cs true else ' ' :: go cs true
    else
      c :: go cs false

/-- JS `replace` with the global dash regex: remove every dash character. -/
def removeDashes (s : String) : String :=
  String.mk (s.toList.filter (fun c => c ≠ '-'))

/-- Character-list core of `removeFirstTxt`. -/
def removeFirstTxtList : List Char → List Char
  | '.' :: 't' :: 'x' :: 't' :: rest => rest
  | c :: cs => c :: removeFirstTxtList cs
  | [] => []

/-- JS `replace('.txt', '')` with a plain-string pattern: remove the first
occurrence (only) of `".txt"`. -/
def removeFirstTxt (s : String) : String :=
  String.mk (removeFirstTxtList s.toList)

/-- JS `Array.prototype.pop()` after `split('/')`: the last field of the
split (a split result is never empty, so `pop` never yields `undefined`). -/
def lastSegment (s : String) : String :=
  (jsSplit '/' s).getLastD ""

/-- JS `cik.padStart(10, '0')` (source: `padCik`). -/
def padCik (cik : String) : String :=
  if cik.length ≥ 10 then cik
  else String.mk (List.replicate (10 - cik.length) '0') ++ cik

/-! ### Calendar dates

A well-formed `YYYY-MM-DD` string is mapped to a day number that is
order-isomorphic to the JS `Date` time value (including the ECMAScript
`MakeDay` overflow behaviour for a day component beyond the month's length);
any other string is mapped to `none` (JS `Invalid Date` / `NaN`, for which
every `<`/`≤` comparison is false). -/

/-- Gregorian leap-year test. -/
def isLeapYear (y : Nat) : Bool :=
  (y % 4 = 0 && y % 100 ≠ 0) || y % 400 = 0

/-- Days in the months strictly before month `m` (1-based) of a year with
leap flag `leap`. -/
def daysBeforeMonth (m : Nat) (leap : Bool) : Nat :=
  ([0, 0, 31, 59, 90, 120, 151, 181, 212, 243, 273, 304, 334].getD m 0)
    + (if leap && m > 2 then 1 else 0)

/-- Day number of the calendar date `(y, m, d)`: strictly monotone in the
date and faithful to `MakeDay`'s rollover for `d` up to 31. -/
def dayNumber (y m d : Nat) : Nat :=
  365 * y + ((y - 1) / 4 - (y - 1) / 100 + (y - 1) / 400)
    + daysBeforeMonth m (isLeapYear y) + d

/-- Parse a strict ISO `YYYY-MM-DD` date string to its year, month and
day components; `none` models the JS `Invalid Date`. -/
def parseIsoYMD (s : String) : Option (Nat × Nat × Nat) :=
  match jsSplit '-' s with
  | [ys, ms, ds] =>
    if ys.length = 4 && ms.length = 2 && ds.length = 2 then
      match parseNatDigits ys, parseNatDigits ms, parseNatDigits ds with
      | some y, some m, some d =>
        if 1 ≤ m && m ≤ 12 && 1 ≤ d && d ≤ 31 then some (y, m, d)
        else none
      | _, _, _ => none
    else none
  | _ => none

/-- Parse a strict ISO `YYYY-MM-DD` date string to its day number; `none`
models the JS `Invalid Date`. -/
def parseIsoDate (s : String) : Option Nat :=
  (parseIsoYMD s).map (fun ymd => dayNumber ymd.1 ymd.2.1 ymd.2.2)

/-- JS `a <= b` on `Date` values: false whenever either side is NaN. -/
def jsDateLe : Option Nat → Option Nat → Bool
  | some a, some b => a ≤ b
  | _, _ => false

/-- JS `a < b` on `Date` values: false whenever either side is NaN. -/
def jsDateLt : Option Nat → Option Nat → Bool
  | some a, some b => a < b
  | _, _ => false

/-! ### Data model (source: `sec_api.ts` interfaces) -/

/-- Filing record (source: `interface Filing`). -/
structure Filing where
  accessionNumber : String
  filingDate : String
  reportDate : String
  form : String
  primaryDocument : String
  url : String
  fullText : String
deriving DecidableEq, Repr

/-- Company record (source: `interface CompanyInfo`). -/
structure CompanyInfo where
  cik : String
  ticker : String
  title : String
deriving DecidableEq, Repr

/-- The `filings.recent` parallel arrays of the per-company submissions JSON
(source: `interface CompanyData`). -/
structure RecentFeed where
  accessionNumber : List String
  filingDate : List String
  reportDate : List String
  form : List String
  primaryDocument : List String
deriving DecidableEq, Repr

/-! ### HTML document model

The cheerio document after the non-content stripping of
`fetchFilingContent` is modelled as a list of body-level blocks: plain
text runs, tables (rows of `td`/`th` cells carrying their `textContent`),
and lists (`ol`/`ul` with the `textContent` of their `li` items). -/

/-- A `td` or `th` cell: header flag and `textContent`. -/
structure TableCell where
  isTh : Bool
  text : String
deriving DecidableEq, Repr

/-- A `tr` row: its `td, th` cells in document order. -/
structure TableRow where
  cells : List TableCell
deriving DecidableEq, Repr

/-- An `ol` (`ordered = true`) or `ul` list with its `li` items' text. -/
structure HtmlList where
  ordered : Bool
  items : List String
deriving DecidableEq, Repr

/-- A body-level block of the cleaned document. -/
inductive HtmlBlock where
  | text (s : String)
  | table (rows : List TableRow)
  | htmlList (l : HtmlList)
deriving DecidableEq, Repr

/-- A cleaned document body. -/
abbrev HtmlDoc := List HtmlBlock

/-- Normalization applied to a cell: `textContent?.trim() || ''` then
`replace(/\s+/g, ' ')`. -/
def cellNorm (s : String) : String := collapseWs (jsTrim s)

/-- Turndown rule `betterTables` (source lines 130–157): emit a
`**TABLE:**` marker, then one line per row with non-empty normalized
cells joined by `" | "`, bold-wrapped when the row contains a `th`;
return `''` when no row produced a line. The `forEach` over rows with
the mutable `result` and `hasValidContent` variables is rendered as a
left fold over a string–flag pair. -/
def betterTablesStep (acc : String × Bool) (row : TableRow) : String × Bool :=
  let cellTexts := (row.cells.map (fun cell => cellNorm cell.text)).filter
    (fun text => text.length > 0)
  if cellTexts.length > 0 then
    let line := String.intercalate " | " cellTexts
    let line := if row.cells.any (fun c => c.isTh) then "**" ++ line ++ "**" else line
    (acc.1 ++ line ++ "\n", true)
  else acc

/-- The whole `betterTables` replacement: fold the per-row step over the
rows, starting from the marker and `hasValidContent = false`. -/
def betterTablesRepl (rows : List TableRow) : String :=
  let r := rows.foldl betterTablesStep ("\n\n**TABLE:**\n\n", false)
  if r.2 then r.1 ++ "\n" else ""

/-- Turndown rule `cleanLists` (source lines 159–176): one line per list
item with non-empty trimmed text, prefixed `"{index+1}. "` for an `ol`
(index taken in the full item list) or `"- "` for a `ul`; an element with
no `li` at all yields `''`. -/
def cleanListsStep (ordered : Bool) (acc : String) (it : Nat × String) : String :=
  let text := jsTrim it.2
  if text ≠ "" then
    let pfx := if ordered then toString (it.1 + 1) ++ ". " else "- "
    acc ++ pfx ++ text ++ "\n"
  else acc

/-- The whole `cleanLists` replacement: fold the per-item step over the
enumerated items. -/
def cleanListsRepl (l : HtmlList) : String :=
  if l.items.length = 0 then ""
  else (l.items.enum.foldl (cleanListsStep l.ordered) "\n\n") ++ "\n"

/-- Concatenation of a list of strings (`String.join`, restated
structurally for proof-friendliness). -/
def concatStrings : List String → String
  | [] => ""
  | s :: ss => s ++ concatStrings ss

/-- Table conversion exactly as the specification words it: a row's line
is its cells' trimmed, whitespace-normalized texts joined by `" | "`
(all of them, empty or not), bold-wrapped when the row contains a `th`;
a row with no non-empty cell after trimming produces no line; a table
none of whose rows produced a line produces no output. -/
def betterTablesClaimed (rows : List TableRow) : String :=
  let lines := rows.filterMap (fun row =>
    let texts := row.cells.map (fun cell => cellNorm cell.text)
    if (texts.filter (fun text => text.length > 0)).length = 0 then none
    else
      let line := String.intercalate " | " texts
      some (if row.cells.any (fun c => c.isTh) then "**" ++ line ++ "**" else line))
  if lines.length = 0 then ""
  else "\n\n**TABLE:**\n\n" ++ concatStrings (lines.map (fun line => line ++ "\n")) ++ "\n"

/-- Line produced by one table row: `none` when the row has no non-empty
normalized cell text, otherwise the non-empty texts joined by `" | "`,
bold-wrapped when the row contains a `th` cell. -/
def tableRowLine (row : TableRow) : Option String :=
  let texts := (row.cells.map (fun cell => cellNorm cell.text)).filter
    (fun text => text.length > 0)
  if texts.length = 0 then none
  else
    let line := String.intercalate " | " texts
    some (if row.cells.any (fun c => c.isTh) then "**" ++ line ++ "**" else line)

/-- Table conversion as amended to match the code: identical to the
specification's wording except that a row's line joins only its
non-empty normalized cell texts. -/
def betterTablesAmended (rows : List TableRow) : String :=
  let lines := rows.filterMap tableRowLine
  if lines.length = 0 then ""
  else "\n\n**TABLE:**\n\n" ++ concatStrings (lines.map (fun line => line ++ "\n")) ++ "\n"

/-- List conversion exactly as the specification words it: one line per
item with non-empty trimmed text, and for an ordered list the emitted
lines are numbered consecutively `1.`, `2.`, … (i.e. by position among
the emitted lines). -/
def cleanListsClaimed (l : HtmlList) : String :=
  if l.items.length = 0 then ""
  else
    let ts := (l.items.map jsTrim).filter (fun text => text ≠ "")
    "\n\n" ++ concatStrings (ts.enum.map (fun it =>
      (if l.ordered then toString (it.1 + 1) ++ ". " else "- ") ++ it.2 ++ "\n"))
      ++ "\n"

/-- Line produced by one enumerated list item: `none` when its trimmed
text is empty, otherwise the prefixed text (the number taken from the
item's position in the full item list). -/
def listItemLine (ordered : Bool) (it : Nat × String) : Option String :=
  let text := jsTrim it.2
  if text = "" then none
  else some ((if ordered then toString (it.1 + 1) ++ ". " else "- ")
    ++ text ++ "\n")

/-- List conversion as amended to match the code: one line per item with
non-empty trimmed text, and for an ordered list each line is numbered by
the item's 1-based position in the full item list, so skipped empty
items leave gaps in the numbering. -/
def cleanListsAmended (l : HtmlList) : String :=
  if l.items.length = 0 then ""
  else "\n\n" ++ concatStrings (l.items.enum.filterMap (listItemLine l.ordered)) ++ "\n"

/-- Conversion of one body-level block by the configured turndown service. -/
def convertBlock : HtmlBlock → String
  | .text s => s
  | .table rows => betterTablesRepl rows
  | .htmlList l => cleanListsRepl l

/-- Conversion of the cleaned body to structured text (source lines
178–189): turndown over the body with the two custom rules, then the
post-processing chain, whose final step is `.trim()` (the intermediate
regex cleanups act on artifacts the block model does not produce). -/
def convertDocument (doc : HtmlDoc) : String :=
  jsTrim (String.join (doc.map convertBlock))

/-! ### The network world -/

/-- Oracles for the three regulator endpoints the core consumes. A
`.error` value models an HTTP request, markup parse, or conversion step
that throws (rejects). -/
structure SecWorld where
  /-- GET of a filing document URL, cheerio load and non-content
  stripping: `.ok` yields the cleaned body, `.error` any exception in
  the try-block of `fetchFilingContent`. -/
  fetchDoc : String → Except String HtmlDoc
  /-- GET of `https://data.sec.gov/submissions/CIK{padded}.json`, keyed by
  the zero-padded CIK. -/
  submissions : String → Except String RecentFeed
  /-- GET of `https://www.sec.gov/Archives/edgar/full-index/{y}/QTR{q}/master.idx`,
  as raw text. -/
  quarterIndex : Nat → Nat → Except String String

/-- The sentinel returned by the fetcher on any failure. -/
def errorSentinel : String := "Error: Unable to fetch filing content"

/-- Document Fetcher (source: `fetchFilingContent`, lines 114–197): the
whole retrieval/parse/convert pipeline runs in a try-block; any exception
is caught and converted to the sentinel string. -/
def fetchFilingContent (world : SecWorld) (url : String) : String :=
  match world.fetchDoc url with
  | .error _ => errorSentinel
  | .ok doc => convertDocument doc

/-! ### Recent-Filings Locator (source: `getCompanyData`, `getRecentFilings`) -/

/-- Per-company submissions record: GET of the padded-CIK URL; a failed
request propagates (the function re-throws after logging). -/
def getCompanyData (world : SecWorld) (cik : String) : Except String RecentFeed :=
  world.submissions (padCik cik)

/-- Filing constructed from row `i` of the recent feed (source: loop body
of `getRecentFilings`, lines 219–234). Fields other than the driving
`accessionNumber` array are read positionally; `getD _ ""` models a JS
`undefined` read past a ragged array's end. -/
def mkRecentFiling (world : SecWorld) (cik : String) (feed : RecentFeed)
    (i : Nat) : Filing :=
  let accessionNum := removeDashes (feed.accessionNumber.getD i "")
  let url := "https://www.sec.gov/Archives/edgar/data/" ++ cik ++ "/"
    ++ accessionNum ++ "/" ++ feed.primaryDocument.getD i ""
  { accessionNumber := feed.accessionNumber.getD i ""
    filingDate := feed.filingDate.getD i ""
    reportDate := feed.reportDate.getD i ""
    form := feed.form.getD i ""
    primaryDocument := feed.primaryDocument.getD i ""
    url := url
    fullText := fetchFilingContent world url }

/-- The scanning loop of `getRecentFilings` (lines 218–235):
`for (i = 0; i < accessionNumber.length && foundCount < limit; i++)`,
collecting a filing whenever `form[i] === formType`. The index variable
is rendered as the list of remaining indices (exhausting it is the
`i < accessionNumber.length` exit; the `foundCount < limit` exit is
checked first on every iteration, as in the loop condition). -/
def recentFilingsLoop (world : SecWorld) (cik formType : String)
    (feed : RecentFeed) (limit : Nat) : List Nat → Nat → List Filing
  | [], _ => []
  | i :: rest, foundCount =>
    if foundCount < limit then
      if feed.form.get? i = some formType then
        mkRecentFiling world cik feed i
          :: recentFilingsLoop world cik formType feed limit rest (foundCount + 1)
      else recentFilingsLoop world cik formType feed limit rest foundCount
    else []

/-- Recent-Filings Locator (source: `getRecentFilings`, lines 212–237;
note the declared default `limit: number = 10`). -/
def getRecentFilings (world : SecWorld) (cik formType : String)
    (limit : Nat := 10) : Except String (List Filing) :=
  match getCompanyData world cik with
  | .error e => .error e
  | .ok feed =>
    .ok (recentFilingsLoop world cik formType feed limit
      (List.range feed.accessionNumber.length) 0)

/-- Indices of the feed rows whose form code is string-equal to the
requested form type, in feed order. -/
def matchingIndices (formType : String) (feed : RecentFeed) : List Nat :=
  (List.range feed.accessionNumber.length).filter
    (fun i => feed.form.get? i = some formType)

/-- Declarative description of the scan: the matching rows, truncated at
`limit`, converted in feed order. -/
def recentFilingsSpec (world : SecWorld) (cik formType : String)
    (feed : RecentFeed) (limit : Nat) : List Filing :=
  ((matchingIndices formType feed).take limit).map (mkRecentFiling world cik feed)

/-! ### Date-Range Locator (source: `getQuartersInRange`,
`getFilingsByDateRange`) -/

/-- Quarter sequence spanning `[startDate, endDate]` (source:
`getQuartersInRange`, lines 43–65). The while loop over `(year, quarter)`
with the condition `year < endYear || (year === endYear && quarter <=
endQuarter)` enumerates consecutive quarter indices `year * 4 + (quarter
- 1)` from the start quarter up to the end quarter; an invalid date makes
every loop comparison false (NaN), i.e. yields the empty list. -/
def getQuartersInRange (startDate endDate : String) : List (Nat × Nat) :=
  match parseIsoYMD startDate, parseIsoYMD endDate with
  | some s, some e =>
    let startIdx := s.1 * 4 + (s.2.1 - 1) / 3
    let endIdx := e.1 * 4 + (e.2.1 - 1) / 3
    (List.range (endIdx + 1 - startIdx)).map
      (fun k => ((startIdx + k) / 4, (startIdx + k) % 4 + 1))
  | _, _ => []

/-- Filing constructed from a matching quarterly-index row (source: loop
body of `getFilingsByDateRange`, lines 262–289): document URL from the
path field, accession number as the path's last segment with the `.txt`
suffix and the dashes removed, and a report date recovered by
cross-referencing the submissions feed (falling back to the filing
date when the feed is unreachable or has no matching row). -/
def mkRangeFiling (world : SecWorld) (cik lineFormType lineFilingDate
    part4 : String) : Filing :=
  let docUrl := "https://www.sec.gov/Archives/" ++ jsTrim part4
  let accessionNumber := removeDashes (removeFirstTxt (lastSegment part4))
  let reportDate :=
    match getCompanyData world cik with
    | .error _ => lineFilingDate
    | .ok feed =>
      match feed.accessionNumber.findIdx?
          (fun acc => removeDashes acc = accessionNumber) with
      | none => lineFilingDate
      | some idx => feed.reportDate.getD idx ""
  { accessionNumber := if accessionNumber = "" then "N/A" else accessionNumber
    filingDate := lineFilingDate
    reportDate := reportDate
    form := lineFormType
    primaryDocument :=
      let pd := lastSegment docUrl
      if pd = "" then "N/A" else pd
    url := docUrl
    fullText := fetchFilingContent world docUrl }

/-- Date-Range Locator (source: `getFilingsByDateRange`, lines 239–297):
for each quarter in range, fetch the master index (skipping the quarter
on failure), drop the fixed 11 header lines, split each data row on the
pipe, discard rows with fewer than 5 fields, and collect a filing for
every row whose CIK and form-type fields match exactly and whose filing
date lies within the requested bounds. The imperative `filings.push`
accumulation is rendered as nested left folds over one list. -/
def getFilingsByDateRange (world : SecWorld) (cik formType startDate
    endDate : String) : List Filing :=
  let quarters := getQuartersInRange startDate endDate
  let start := parseIsoDate startDate
  let stop := parseIsoDate endDate
  quarters.foldl (fun filings yq =>
    match world.quarterIndex yq.1 yq.2 with
    | .error _ => filings
    | .ok text =>
      ((jsSplit '\n' text).drop 11).foldl (fun filings line =>
        let parts := jsSplit '|' line
        if parts.length < 5 then filings
        else
          let lineCik := jsTrim (parts.getD 0 "")
          let lineFormType := jsTrim (parts.getD 2 "")
          let lineFilingDate := jsTrim (parts.getD 3 "")
          let filingDate := parseIsoDate lineFilingDate
          if lineCik = cik ∧ lineFormType = formType
              ∧ jsDateLe start filingDate ∧ jsDateLe filingDate stop then
            filings ++ [mkRangeFiling world cik lineFormType lineFilingDate
              (parts.getD 4 "")]
          else filings) filings) []

/-- Row filter of the Date-Range Locator, as the claims phrase it: a data
row yields a filing exactly when it splits on the pipe into at least 5
fields whose CIK and form-type fields equal the request exactly and whose
filing-date field lies within the inclusive bounds. -/
def rangeRowFiling (world : SecWorld) (cik formType : String)
    (start stop : Option Nat) (line : String) : Option Filing :=
  let parts := jsSplit '|' line
  if parts.length ≥ 5
      ∧ jsTrim (parts.getD 0 "") = cik
      ∧ jsTrim (parts.getD 2 "") = formType
      ∧ jsDateLe start (parseIsoDate (jsTrim (parts.getD 3 "")))
      ∧ jsDateLe (parseIsoDate (jsTrim (parts.getD 3 ""))) stop then
    some (mkRangeFiling world cik (jsTrim (parts.getD 2 ""))
      (jsTrim (parts.getD 3 "")) (parts.getD 4 ""))
  else none

/-- Declarative description of the Date-Range Locator: per quarter in
order, the matching rows of a successfully fetched index (after the
11-line header) each yield exactly one filing; a failed quarter yields
none. -/
def dateRangeSpec (world : SecWorld) (cik formType startDate
    endDate : String) : List Filing :=
  (getQuartersInRange startDate endDate).flatMap (fun yq =>
    match world.quarterIndex yq.1 yq.2 with
    | .error _ => []
    | .ok text =>
      ((jsSplit '\n' text).drop 11).filterMap
        (rangeRowFiling world cik formType (parseIsoDate startDate)
          (parseIsoDate endDate)))

/-! ### Retrieval Orchestrator (source: the `researcher` tool of
`src/app/api/chat/route.ts`, lines 273–478)

The tool's `execute` function is modelled as a pure function from an
environment (the resolver/locator results and the per-conversation
database state) to the tool's reply string together with the trace of
SEC calls it performed; each invocation of `findCik`,
`getRecentFilings` or `getFilingsByDateRange` appends to the trace at
the point of the call, so an empty trace means none of them ran and no
SEC network request was attempted. Reply strings reproduce the leading
sentences of the source's template literals; the long advisory tails
and the stored-report JSON dump are elided. -/

/-- One SEC-touching call made by the researcher tool. -/
inductive SecCall where
  | findCikCall (identifier : String)
  | recentFilingsCall (cik formType : String) (limit : Nat)
  | dateRangeCall (cik formType startDate endDate : String)
deriving DecidableEq, Repr

/-- The researcher tool's input after zod validation: `startDate` and
`endDate` are optional, `limit` defaults to 1. -/
structure ResearcherInput where
  companyIdentifier : String
  formType : String
  startDate : Option String := none
  endDate : Option String := none
  limit : Nat := 1
deriving DecidableEq, Repr

/-- Environment of one researcher invocation: oracle results for the SEC
layer and the conversation's stored state. -/
structure ChatEnv where
  /-- Result of `findCik(companyIdentifier)`; `.error` models a thrown
  `CIK not found` (or network) error, caught by the tool's try-block. -/
  findCikResult : String → Except String (List CompanyInfo)
  /-- Result of `getRecentFilings(cik, formType, limit)`. -/
  recentResult : String → String → Nat → List Filing
  /-- Result of `getFilingsByDateRange(cik, formType, startDate, endDate)`. -/
  rangeResult : String → String → String → String → List Filing
  /-- The conversation's `report_fetch_count` (0 when null). -/
  reportFetchCount : Nat
  /-- Stored report lookup by accession number: `some filingDate` when a
  report with that accession number already exists for this user. -/
  existingFilingDate : String → Option String

/-- JS truthiness of an optional string: `undefined` and `''` are falsy. -/
def jsTruthyStr : Option String → Bool
  | some s => s ≠ ""
  | none => false

/-- Guard 1's rejection message (source lines 308–313; advisory tail
abridged). -/
def limitExceededMessage (limit : Nat) : String :=
  "LIMIT EXCEEDED: Requested " ++ toString limit
    ++ " reports, but maximum is 10 per request.\n\nSOLUTION: Please retry with limit: 10 to fetch the first 10 reports."

/-- Guard 2's rejection message (source lines 328–338; the suggested
sub-range dates are elided). -/
def dateRangeExceededMessage : String :=
  "DATE RANGE EXCEEDED: Requested range spans more than 2 years, but maximum is 2 years per request.\n\nSOLUTION: Break into smaller periods."

/-- Guard 3's rejection message (source lines 354–365; advisory tail
abridged). -/
def conversationLimitMessage (currentFetchCount : Nat) : String :=
  "CONVERSATION LIMIT: This conversation has already fetched "
    ++ toString currentFetchCount ++ " reports. Maximum is 30 per conversation."

/-- The researcher tool's `execute` (source lines 299–477): the three
guardrails run in order before any resolution or location work; only
after they pass does the tool call `findCik` and then one of the two
locators, store the results, and reply. -/
def researcherExecute (env : ChatEnv) (inp : ResearcherInput) :
    String × List SecCall :=
  -- 1. Check per-request report limit: `if (limit && limit > 10)`
  if inp.limit ≠ 0 ∧ inp.limit > 10 then
    (limitExceededMessage inp.limit, [])
  else
    -- 2. Check date range span: `if (startDate && endDate)` and
    -- `(end - start) / (1000*60*60*24*365) > 2`, i.e. more than 730 days
    -- (false when either date is invalid, as NaN comparisons are false)
    let spanExceeded : Bool :=
      if jsTruthyStr inp.startDate && jsTruthyStr inp.endDate then
        match parseIsoDate (inp.startDate.getD ""), parseIsoDate (inp.endDate.getD "") with
        | some s, some e => ((e : Int) - (s : Int)) * 86400000 > 2 * 31536000000
        | _, _ => false
      else false
    if spanExceeded then (dateRangeExceededMessage, [])
    else
      -- 3. Check conversation-level report count
      let proposedTotal := env.reportFetchCount + (if inp.limit = 0 then 1 else inp.limit)
      if proposedTotal > 30 then (conversationLimitMessage env.reportFetchCount, [])
      else
        match env.findCikResult inp.companyIdentifier with
        | .error msg =>
          ("An error occurred: " ++ msg, [.findCikCall inp.companyIdentifier])
        | .ok companies =>
          if companies.length = 0 then
            ("Could not find a CIK for \"" ++ inp.companyIdentifier ++ "\".",
              [.findCikCall inp.companyIdentifier])
          else
            let company := companies.headD ⟨"", "", ""⟩
            let located : List Filing × List SecCall :=
              if jsTruthyStr inp.startDate && jsTruthyStr inp.endDate then
                let sd := inp.startDate.getD ""
                let ed := inp.endDate.getD ""
                (env.rangeResult company.cik inp.formType sd ed,
                  [.findCikCall inp.companyIdentifier,
                    .dateRangeCall company.cik inp.formType sd ed])
              else
                let lim := if inp.limit = 0 then 1 else inp.limit
                (env.recentResult company.cik inp.formType lim,
                  [.findCikCall inp.companyIdentifier,
                    .recentFilingsCall company.cik inp.formType lim])
            let filings := located.1
            let calls := located.2
            if filings.length = 0 then
              ("No " ++ inp.formType ++ " filings found for " ++ company.title
                ++ " in the specified range.", calls)
            else
              -- the storage loop early-returns on the first filing whose
              -- accession number already has a stored report
              match filings.find? (fun f => (env.existingFilingDate f.accessionNumber).isSome) with
              | some f =>
                ("Filing " ++ f.accessionNumber ++ " for " ++ f.form
                  ++ " already exists in your database (filed on "
                  ++ (env.existingFilingDate f.accessionNumber).getD ""
                  ++ "). Use the content retriever tool to access the stored content.",
                  calls)
              | none =>
                ("Successfully retrieved and stored " ++ toString filings.length
                  ++ " filing(s).", calls)

/-! ### Concrete fixtures -/

/-- Recent feed with two `10-K` rows (most recent first), in the shape of
the regulator's submissions JSON for CIK 320193. -/
def feedTwo : RecentFeed :=
  { accessionNumber := ["0000320193-23-000106", "0000320193-22-000108"]
    filingDate := ["2023-11-03", "2022-10-28"]
    reportDate := ["2023-09-30", "2022-09-24"]
    form := ["10-K", "10-K"]
    primaryDocument := ["aapl-20230930.htm", "aapl-20220924.htm"] }

/-- World in which every endpoint request throws. -/
def wErr : SecWorld :=
  { fetchDoc := fun _ => .error "getaddrinfo ENOTFOUND www.sec.gov"
    submissions := fun _ => .error "getaddrinfo ENOTFOUND data.sec.gov"
    quarterIndex := fun _ _ => .error "getaddrinfo ENOTFOUND www.sec.gov" }

/-- World in which the submissions feed for CIK 320193 is `feedTwo` and
every document fetch throws. -/
def wFeed : SecWorld :=
  { fetchDoc := fun _ => .error "Request failed with status code 404"
    submissions := fun cik =>
      if cik = "0000320193" then .ok feedTwo
      else .error "Request failed with status code 404"
    quarterIndex := fun _ _ => .error "Request failed with status code 404" }

/-- World in which the submissions feed for CIK 320193 is `feedTwo` and
every document URL resolves to a page whose body has no content blocks. -/
def wEmptyDoc : SecWorld :=
  { fetchDoc := fun _ => .ok []
    submissions := fun cik =>
      if cik = "0000320193" then .ok feedTwo
      else .error "Request failed with status code 404"
    quarterIndex := fun _ _ => .error "Request failed with status code 404" }

/-- Quarterly master index for 2023 QTR4: the fixed 11-line header
preamble followed by one data row for CIK 320193. -/
def idxText2023Q4 : String :=
  String.intercalate "\n"
    [ "Description:           Master Index of EDGAR Dissemination Feed"
    , "Last Data Received:    December 31, 2023"
    , "Comments:              webmaster@sec.gov"
    , "Anonymous FTP:         ftp://ftp.sec.gov/edgar/"
    , "Cloud HTTP:            https://www.sec.gov/Archives/"
    , ""
    , ""
    , ""
    , "CIK|Company Name|Form Type|Date Filed|Filename"
    , "--------------------------------------------------------------------------------"
    , ""
    , "320193|Apple Inc.|10-K|2023-11-03|edgar/data/320193/0000320193-23-000106.txt"
    , "" ]

/-- World serving the 2023 QTR4 master index; the submissions endpoint and
the document endpoint throw. -/
def wIdx : SecWorld :=
  { fetchDoc := fun _ => .error "Request failed with status code 403"
    submissions := fun _ => .error "Request failed with status code 403"
    quarterIndex := fun year quarter =>
      if year = 2023 ∧ quarter = 4 then .ok idxText2023Q4
      else .error "Request failed with status code 403" }

/-- The filing built from the first `feedTwo` row when the document fetch
throws. -/
def filingA : Filing :=
  { accessionNumber := "0000320193-23-000106"
    filingDate := "2023-11-03"
    reportDate := "2023-09-30"
    form := "10-K"
    primaryDocument := "aapl-20230930.htm"
    url := "https://www.sec.gov/Archives/edgar/data/320193/000032019323000106/aapl-20230930.htm"
    fullText := errorSentinel }

/-- The filing built from the second `feedTwo` row when the document fetch
throws. -/
def filingB : Filing :=
  { accessionNumber := "0000320193-22-000108"
    filingDate := "2022-10-28"
    reportDate := "2022-09-24"
    form := "10-K"
    primaryDocument := "aapl-20220924.htm"
    url := "https://www.sec.gov/Archives/edgar/data/320193/000032019322000108/aapl-20220924.htm"
    fullText := errorSentinel }

/-- The filing built from the first `feedTwo` row when the fetched
document has no content. -/
def filingAEmpty : Filing :=
  { filingA with fullText := "" }

/-- Chat environment in which resolution succeeds and both locators
return no filings. -/
def envOk : ChatEnv :=
  { findCikResult := fun _ => .ok [⟨"320193", "AAPL", "Apple Inc."⟩]
    recentResult := fun _ _ _ => []
    rangeResult := fun _ _ _ _ => []
    reportFetchCount := 0
    existingFilingDate := fun _ => none }

/-- Researcher request asking for 11 filings (ceiling 10). -/
def inpEleven : ResearcherInput :=
  { companyIdentifier := "Apple", formType := "10-K", limit := 11 }

/-- Table with one row whose middle cell is empty. -/
def tableCexRows : List TableRow :=
  [⟨[⟨false, "a"⟩, ⟨false, ""⟩, ⟨false, "b"⟩]⟩]

/-- Ordered list whose first item has empty text. -/
def listCex : HtmlList := ⟨true, ["", "a"]⟩

/-! ### Equivalence of the imperative loops with their declarative forms -/

/-- The early-exit scan over the remaining indices with `foundCount`
matches already collected returns the next `limit - foundCount` matching
rows. -/
theorem recentFilingsLoop_eq (world : SecWorld) (cik formType : String)
    (feed : RecentFeed) (limit : Nat) :
    ∀ (idxs : List Nat) (foundCount : Nat),
      recentFilingsLoop world cik formType feed limit idxs foundCount =
        ((idxs.filter (fun j => feed.form.get? j = some formType)).take
          (limit - foundCount)).map (mkRecentFiling world cik feed) := by
  intro idxs
  induction idxs with
  | nil => intro foundCount; simp [recentFilingsLoop]
  | cons i rest ih =>
    intro foundCount
    rw [recentFilingsLoop]
    by_cases hf : foundCount < limit
    · have htake : limit - foundCount = (limit - (foundCount + 1)) + 1 := by omega
      by_cases hp : feed.form.get? i = some formType
      · rw [if_pos hf, if_pos hp, ih (foundCount + 1),
          List.filter_cons_of_pos (by simpa using hp), htake,
          List.take_succ_cons, List.map_cons]
      · rw [if_pos hf, if_neg hp, ih foundCount,
          List.filter_cons_of_neg (by simpa using hp)]
    · have hz : limit - foundCount = 0 := by omega
      simp [hf, hz]

theorem getRecentFilings_eq_spec (world : SecWorld) (cik formType : String)
    (limit : Nat) :
    getRecentFilings world cik formType limit =
      Except.map (fun feed => recentFilingsSpec world cik formType feed limit)
        (getCompanyData world cik) := by
  unfold getRecentFilings
  cases h : getCompanyData world cik with
  | error e => simp [h, Except.map]
  | ok feed =>
    simp only [h, Except.map, Except.ok.injEq]
    rw [recentFilingsLoop_eq]
    unfold recentFilingsSpec matchingIndices
    simp

/-- The per-quarter row scan accumulates exactly the filings of the
matching rows, in row order. -/
theorem dateRange_lines_eq (world : SecWorld) (cik formType : String)
    (start stop : Option Nat) :
    ∀ (lines : List String) (filings : List Filing),
      lines.foldl (fun filings line =>
        let parts := jsSplit '|' line
        if parts.length < 5 then filings
        else
          let lineCik := jsTrim (parts.getD 0 "")
          let lineFormType := jsTrim (parts.getD 2 "")
          let lineFilingDate := jsTrim (parts.getD 3 "")
          let filingDate := parseIsoDate lineFilingDate
          if lineCik = cik ∧ lineFormType = formType
              ∧ jsDateLe start filingDate ∧ jsDateLe filingDate stop then
            filings ++ [mkRangeFiling world cik lineFormType lineFilingDate
              (parts.getD 4 "")]
          else filings) filings
      = filings ++ lines.filterMap (rangeRowFiling world cik formType start stop) := by
  intro lines
  induction lines with
  | nil => intro filings; simp
  | cons line rest ih =>
    intro filings
    rw [List.foldl_cons, List.filterMap_cons, ih]
    simp only [rangeRowFiling]
    split_ifs <;> simp_all
    omega

/-- The quarter loop accumulates, per quarter in order, the filings of the
matching rows of each successfully fetched index. -/
theorem getFilingsByDateRange_eq_spec (world : SecWorld)
    (cik formType startDate endDate : String) :
    getFilingsByDateRange world cik formType startDate endDate =
      dateRangeSpec world cik formType startDate endDate := by
  unfold getFilingsByDateRange dateRangeSpec
  suffices H : ∀ (qs : List (Nat × Nat)) (acc : List Filing),
      qs.foldl (fun filings yq =>
        match world.quarterIndex yq.1 yq.2 with
        | .error _ => filings
        | .ok text =>
          ((jsSplit '\n' text).drop 11).foldl (fun filings line =>
            let parts := jsSplit '|' line
            if parts.length < 5 then filings
            else
              let lineCik := jsTrim (parts.getD 0 "")
              let lineFormType := jsTrim (parts.getD 2 "")
              let lineFilingDate := jsTrim (parts.getD 3 "")
              let filingDate := parseIsoDate lineFilingDate
              if lineCik = cik ∧ lineFormType = formType
                  ∧ jsDateLe (parseIsoDate startDate) filingDate
                  ∧ jsDateLe filingDate (parseIsoDate endDate) then
                filings ++ [mkRangeFiling world cik lineFormType lineFilingDate
                  (parts.getD 4 "")]
              else filings) filings) acc
      = acc ++ qs.flatMap (fun yq =>
          match world.quarterIndex yq.1 yq.2 with
          | .error _ => []
          | .ok text =>
            ((jsSplit '\n' text).drop 11).filterMap
              (rangeRowFiling world cik formType (parseIsoDate startDate)
                (parseIsoDate endDate))) by
    simpa using H (getQuartersInRange startDate endDate) []
  intro qs
  induction qs with
  | nil => intro acc; simp
  | cons yq rest ih =>
    intro acc
    rw [List.foldl_cons, List.flatMap_cons, ih]
    cases h : world.quarterIndex yq.1 yq.2 with
    | error e => simp [h]
    | ok text =>
      simp only [h]
      rw [dateRange_lines_eq]
      simp [List.append_assoc]


/-- Dichotomy of the fetcher: either the pipeline threw and the result is
the sentinel, or a document was fetched and the result is its conversion. -/
theorem fetch_dichotomy (world : SecWorld) (u : String) :
    fetchFilingContent world u = errorSentinel
    ∨ ∃ doc, world.fetchDoc u = .ok doc
        ∧ fetchFilingContent world u = convertDocument doc := by
  cases h : world.fetchDoc u with
  | error e => exact Or.inl (by simp [fetchFilingContent, h])
  | ok doc => exact Or.inr ⟨doc, rfl, by simp [fetchFilingContent, h]⟩

/-- Dashes never survive `removeDashes`. -/
theorem removeDashes_no_dash (s : String) : '-' ∉ (removeDashes s).toList := by
  simp [removeDashes, String.toList, List.mem_filter]

/-! ### The claims -/

/-- C1: for every url, `fetchFilingContent` never throws: any exception
during HTTP retrieval or markup parsing/conversion yields exactly the
sentinel string, and on every other input the call returns the converted
structured text of the fetched document. (In the embedding the function
is total by construction; the two conjuncts are the failure and success
contracts.) -/
theorem fetchFilingContent_never_throws (world : SecWorld) (url : String) :
    (∀ e, world.fetchDoc url = .error e →
      fetchFilingContent world url = errorSentinel)
    ∧ (∀ doc, world.fetchDoc url = .ok doc →
      fetchFilingContent world url = convertDocument doc) := by
  refine ⟨fun e he => ?_, fun doc hd => ?_⟩
  · simp [fetchFilingContent, he]
  · simp [fetchFilingContent, hd]

/-- Witness for C1: a world in which the document request throws; the
call returns the sentinel. -/
theorem fetchFilingContent_never_throws_witness :
    wErr.fetchDoc "https://www.sec.gov/Archives/x.htm"
        = .error "getaddrinfo ENOTFOUND www.sec.gov"
    ∧ fetchFilingContent wErr "https://www.sec.gov/Archives/x.htm" = errorSentinel :=
  ⟨rfl, (fetchFilingContent_never_throws wErr "https://www.sec.gov/Archives/x.htm").1
    "getaddrinfo ENOTFOUND www.sec.gov" rfl⟩

/-- The accession number stored by the Date-Range Locator never contains
a dash: it is either the dash-stripped path segment or `"N/A"`. -/
theorem mkRangeFiling_accession_no_dash (world : SecWorld)
    (cik a b p4 : String) :
    '-' ∉ (mkRangeFiling world cik a b p4).accessionNumber.toList := by
  unfold mkRangeFiling
  dsimp only
  by_cases hacc : removeDashes (removeFirstTxt (lastSegment p4)) = ""
  · rw [if_pos hacc]; decide
  · rw [if_neg hacc]; exact removeDashes_no_dash _

/-- Both locators set `fullText` by fetching the filing's own `url`. -/
theorem mkRecentFiling_fullText_eq (world : SecWorld) (cik : String)
    (feed : RecentFeed) (i : Nat) :
    (mkRecentFiling world cik feed i).fullText
      = fetchFilingContent world (mkRecentFiling world cik feed i).url := rfl

/-- The Date-Range Locator sets `fullText` by fetching the filing's own
`url`. -/
theorem mkRangeFiling_fullText_eq (world : SecWorld) (cik a b p4 : String) :
    (mkRangeFiling world cik a b p4).fullText
      = fetchFilingContent world (mkRangeFiling world cik a b p4).url := rfl

/-- C2 counterexample: on a quarterly index whose row carries the
canonical dashed accession number `0000320193-23-000106`, the Date-Range
Locator returns a Filing whose `accessionNumber` is the dash-stripped
`000032019323000106` — not the regulator's canonical dashed form. -/
theorem accessionNumber_dash_stripped_cex :
    (getFilingsByDateRange wIdx "320193" "10-K" "2023-11-01" "2023-11-05").map
        (fun f => f.accessionNumber) = ["000032019323000106"]
    ∧ ("000032019323000106" : String) ≠ "0000320193-23-000106"
    ∧ '-' ∉ ("000032019323000106" : String).toList :=
  ⟨by decide, by decide, by decide⟩

/-- C2 as amended: `getRecentFilings` preserves the feed's accession
number verbatim (canonical dashed form included), while every Filing
produced by `getFilingsByDateRange` carries a dash-free accession number
(the dash-stripped path segment, or `"N/A"` when that is empty). -/
theorem accessionNumber_forms (world : SecWorld)
    (cik formType startDate endDate : String) (limit : Nat) :
    (∀ feed, getCompanyData world cik = .ok feed →
      ∀ fs, getRecentFilings world cik formType limit = .ok fs →
        ∀ f ∈ fs, f.accessionNumber ∈ feed.accessionNumber)
    ∧ (∀ f ∈ getFilingsByDateRange world cik formType startDate endDate,
        '-' ∉ f.accessionNumber.toList) := by
  constructor
  · intro feed hfeed fs hfs f hf
    have h := getRecentFilings_eq_spec world cik formType limit
    rw [hfeed, hfs] at h
    simp only [Except.map, Except.ok.injEq] at h
    rw [h] at hf
    unfold recentFilingsSpec at hf
    obtain ⟨i, hi, rfl⟩ := List.mem_map.mp hf
    have hmem : i ∈ matchingIndices formType feed := List.mem_of_mem_take hi
    have hlt : i < feed.accessionNumber.length := by
      unfold matchingIndices at hmem
      exact List.mem_range.mp (List.mem_filter.mp hmem).1
    show feed.accessionNumber.getD i "" ∈ feed.accessionNumber
    rw [List.getD_eq_getElem _ _ hlt]
    exact List.getElem_mem hlt
  · intro f hf
    rw [getFilingsByDateRange_eq_spec] at hf
    unfold dateRangeSpec at hf
    obtain ⟨yq, hyq, hf2⟩ := List.mem_flatMap.mp hf
    cases hq : world.quarterIndex yq.1 yq.2 with
    | error e => rw [hq] at hf2; simp at hf2
    | ok text =>
      rw [hq] at hf2
      obtain ⟨line, hline, hsome⟩ := List.mem_filterMap.mp hf2
      unfold rangeRowFiling at hsome
      dsimp only at hsome
      split at hsome
      · cases hsome
        exact mkRangeFiling_accession_no_dash world cik _ _ _
      · simp at hsome

/-- Witness for C2-as-amended: the recent-feed filing keeps the dashed
accession number of `feedTwo` verbatim. -/
theorem accessionNumber_forms_witness :
    getRecentFilings wFeed "320193" "10-K" 1 = .ok [filingA]
    ∧ filingA.accessionNumber ∈ feedTwo.accessionNumber :=
  ⟨by decide,
    (accessionNumber_forms wFeed "320193" "10-K" "2023-01-01" "2023-12-31" 1).1
      feedTwo (by decide) [filingA] (by decide) filingA (by decide)⟩

/-- C3 counterexample: a successfully fetched document with no content
converts to the empty string, so a Filing with a non-empty `url` can
carry `fullText = ""` — neither genuine non-empty content nor the error
sentinel. -/
theorem fullText_empty_on_success_cex :
    getRecentFilings wEmptyDoc "320193" "10-K" 1 = .ok [filingAEmpty]
    ∧ filingAEmpty.url ≠ ""
    ∧ filingAEmpty.fullText = ""
    ∧ filingAEmpty.fullText ≠ errorSentinel :=
  ⟨by decide, by decide, by decide, by decide⟩

/-- C3 as amended: for every Filing constructed by either locator,
`fullText` is either exactly the error sentinel or the converted text of
the document fetched from the filing's `url` — and the converted text
may be empty when the fetched document has no content. -/
theorem fullText_sentinel_or_converted (world : SecWorld)
    (cik formType startDate endDate : String) (limit : Nat) (f : Filing) :
    (∀ fs, getRecentFilings world cik formType limit = .ok fs → f ∈ fs →
      f.fullText = errorSentinel
      ∨ ∃ doc, world.fetchDoc f.url = .ok doc ∧ f.fullText = convertDocument doc)
    ∧ (f ∈ getFilingsByDateRange world cik formType startDate endDate →
      f.fullText = errorSentinel
      ∨ ∃ doc, world.fetchDoc f.url = .ok doc ∧ f.fullText = convertDocument doc) := by
  constructor
  · intro fs hfs hf
    have h := getRecentFilings_eq_spec world cik formType limit
    cases hfeed : getCompanyData world cik with
    | error e => rw [hfeed, hfs] at h; simp [Except.map] at h
    | ok feed =>
      rw [hfeed, hfs] at h
      simp only [Except.map, Except.ok.injEq] at h
      rw [h] at hf
      unfold recentFilingsSpec at hf
      obtain ⟨i, hi, rfl⟩ := List.mem_map.mp hf
      rw [mkRecentFiling_fullText_eq]
      exact fetch_dichotomy world _
  · intro hf
    rw [getFilingsByDateRange_eq_spec] at hf
    unfold dateRangeSpec at hf
    obtain ⟨yq, hyq, hf2⟩ := List.mem_flatMap.mp hf
    cases hq : world.quarterIndex yq.1 yq.2 with
    | error e => rw [hq] at hf2; simp at hf2
    | ok text =>
      rw [hq] at hf2
      obtain ⟨line, hline, hsome⟩ := List.mem_filterMap.mp hf2
      unfold rangeRowFiling at hsome
      dsimp only at hsome
      split at hsome
      · cases hsome
        rw [mkRangeFiling_fullText_eq]
        exact fetch_dichotomy world _
      · simp at hsome

/-- Witness for C3-as-amended: the filing fetched in the all-throwing
world carries the sentinel. -/
theorem fullText_sentinel_or_converted_witness :
    getRecentFilings wFeed "320193" "10-K" 1 = .ok [filingA]
    ∧ (filingA.fullText = errorSentinel
      ∨ ∃ doc, wFeed.fetchDoc filingA.url = .ok doc
          ∧ filingA.fullText = convertDocument doc) :=
  ⟨by decide,
    (fullText_sentinel_or_converted wFeed "320193" "10-K" "2023-01-01"
      "2023-12-31" 1 filingA).1 [filingA] (by decide) (by decide)⟩

/-- C4: `getRecentFilings` returns exactly the first
`min(limit, number of matching rows)` rows of the feed whose form code
equals `formType`, converted to Filings in feed order: the result equals
the matching row indices truncated at `limit` and converted, and its
length is `min limit (number of matching rows)`. -/
theorem getRecentFilings_scan (world : SecWorld) (cik formType : String)
    (limit : Nat) :
    getRecentFilings world cik formType limit =
      Except.map (fun feed => recentFilingsSpec world cik formType feed limit)
        (getCompanyData world cik)
    ∧ ∀ feed, getCompanyData world cik = .ok feed →
        ∀ fs, getRecentFilings world cik formType limit = .ok fs →
          fs.length = min limit (matchingIndices formType feed).length := by
  refine ⟨getRecentFilings_eq_spec world cik formType limit, ?_⟩
  intro feed hfeed fs hfs
  have h := getRecentFilings_eq_spec world cik formType limit
  rw [hfeed, hfs] at h
  simp only [Except.map, Except.ok.injEq] at h
  rw [h]
  simp [recentFilingsSpec, List.length_take]

/-- Witness for C4: on the two-row feed with `limit = 1`, exactly
`min 1 2 = 1` filing is returned. -/
theorem getRecentFilings_scan_witness :
    getCompanyData wFeed "320193" = .ok feedTwo
    ∧ getRecentFilings wFeed "320193" "10-K" 1 = .ok [filingA]
    ∧ [filingA].length = min 1 (matchingIndices "10-K" feedTwo).length :=
  ⟨by decide, by decide,
    (getRecentFilings_scan wFeed "320193" "10-K" 1).2 feedTwo (by decide)
      [filingA] (by decide)⟩

/-- C5 counterexample: with the limit argument omitted, the locator does
not behave as if `limit` were 1 — on a feed with two matching rows the
default call returns 2 filings, not at most one (the declared default is
`limit = 10`). -/
theorem getRecentFilings_default_limit_cex :
    (getRecentFilings wFeed "320193" "10-K").map List.length = .ok 2
    ∧ ¬ (2 : Nat) ≤ 1 :=
  ⟨by decide, by decide⟩

/-- C5 as amended: when the limit argument is omitted the locator behaves
as if `limit` were 10 (the declared default), so the default call
returns at most 10 filings. -/
theorem getRecentFilings_default_limit (world : SecWorld)
    (cik formType : String) :
    getRecentFilings world cik formType = getRecentFilings world cik formType 10
    ∧ ∀ fs, getRecentFilings world cik formType = .ok fs → fs.length ≤ 10 := by
  refine ⟨rfl, ?_⟩
  intro fs hfs
  have h := getRecentFilings_eq_spec world cik formType 10
  cases hfeed : getCompanyData world cik with
  | error e => rw [hfeed] at h; rw [hfs] at h; simp [Except.map] at h
  | ok feed =>
    rw [hfeed, hfs] at h
    simp only [Except.map, Except.ok.injEq] at h
    rw [h]
    simp only [recentFilingsSpec, List.length_map, List.length_take]
    omega

/-- Witness for C5-as-amended: the default call on the two-row feed
returns both filings, and 2 ≤ 10. -/
theorem getRecentFilings_default_limit_witness :
    getRecentFilings wFeed "320193" "10-K" = .ok [filingA, filingB]
    ∧ [filingA, filingB].length ≤ 10 :=
  ⟨by decide, (getRecentFilings_default_limit wFeed "320193" "10-K").2
    [filingA, filingB] (by decide)⟩

/-- C6: the filings returned by `getFilingsByDateRange` are exactly, in
order, one filing per quarterly-index data row (after the fixed 11-line
header) of each successfully fetched quarter index that splits on the
pipe into at least 5 fields with the CIK field equal to `cik`, the
form-type field equal to `formType`, and the filing-date field within
`[startDate, endDate]` inclusive; rows with fewer than 5 fields are
discarded. -/
theorem getFilingsByDateRange_matching_rows (world : SecWorld)
    (cik formType startDate endDate : String) :
    getFilingsByDateRange world cik formType startDate endDate =
      dateRangeSpec world cik formType startDate endDate :=
  getFilingsByDateRange_eq_spec world cik formType startDate endDate

/-- C7: in the researcher tool, a request with `limit` greater than 10 is
rejected with the corrective-retry message before any resolution or
location work: the reply is the limit-exceeded message and the SEC-call
trace is empty, i.e. `findCik`, `getRecentFilings` and
`getFilingsByDateRange` are never invoked and no SEC network call is
attempted. -/
theorem researcher_limit_guardrail (env : ChatEnv) (inp : ResearcherInput)
    (h : inp.limit > 10) :
    researcherExecute env inp = (limitExceededMessage inp.limit, []) := by
  have hne : inp.limit ≠ 0 := by omega
  unfold researcherExecute
  rw [if_pos ⟨hne, h⟩]

/-- Witness for C7: a request with `limit = 11` is rejected with an empty
SEC-call trace. -/
theorem researcher_limit_guardrail_witness :
    inpEleven.limit > 10
    ∧ researcherExecute envOk inpEleven = (limitExceededMessage 11, []) :=
  ⟨by decide, researcher_limit_guardrail envOk inpEleven (by decide)⟩

/-- One step of the `betterTables` fold, phrased through `tableRowLine`. -/
theorem betterTablesStep_eq (acc : String × Bool) (row : TableRow) :
    betterTablesStep acc row =
      match tableRowLine row with
      | none => acc
      | some line => (acc.1 ++ line ++ "\n", true) := by
  unfold betterTablesStep tableRowLine
  by_cases h : ((row.cells.map (fun cell => cellNorm cell.text)).filter
      (fun text => text.length > 0)).length = 0
  · have h' : ¬ ((row.cells.map (fun cell => cellNorm cell.text)).filter
        (fun text => text.length > 0)).length > 0 := by omega
    simp only [if_pos h, if_neg h']
  · have h' : ((row.cells.map (fun cell => cellNorm cell.text)).filter
        (fun text => text.length > 0)).length > 0 := by omega
    simp only [if_neg h, if_pos h']

/-- The `betterTables` fold accumulates the concatenated row lines and a
flag recording whether any row produced a line. -/
theorem betterTables_fold (rows : List TableRow) :
    ∀ (s : String) (b : Bool),
      rows.foldl betterTablesStep (s, b)
      = (s ++ concatStrings ((rows.filterMap tableRowLine).map
            (fun line => line ++ "\n")),
          b || !(rows.filterMap tableRowLine).isEmpty) := by
  induction rows with
  | nil => intro s b; simp [concatStrings]
  | cons row rest ih =>
    intro s b
    rw [List.foldl_cons, List.filterMap_cons, betterTablesStep_eq]
    cases h : tableRowLine row with
    | none => simp only [h]; rw [ih]
    | some line =>
      simp only [h]
      rw [ih]
      simp [concatStrings, String.append_assoc]

/-- C8 counterexample: on a row whose middle cell is empty, the code's
conversion joins only the non-empty cell texts (`"a | b"`), while the
claim's reading joins all cell texts (`"a |  | b"`). -/
theorem betterTables_claim_cex :
    betterTablesRepl tableCexRows = "\n\n**TABLE:**\n\na | b\n\n"
    ∧ betterTablesClaimed tableCexRows = "\n\n**TABLE:**\n\na |  | b\n\n"
    ∧ betterTablesRepl tableCexRows ≠ betterTablesClaimed tableCexRows :=
  ⟨by decide, by decide, by decide⟩

/-- C8 as amended: the conversion emits a `**TABLE:**` marker followed by
one line per table row, where a row's line is its cells' trimmed,
whitespace-normalized non-empty texts joined by `" | "`; a row with at
least one `th` cell is bold-wrapped, a row with no non-empty cells after
trimming produces no line, and a table all of whose rows are empty
produces no output. -/
theorem betterTables_rule (rows : List TableRow) :
    betterTablesRepl rows = betterTablesAmended rows := by
  unfold betterTablesRepl betterTablesAmended
  rw [betterTables_fold]
  dsimp only
  cases hl : rows.filterMap tableRowLine with
  | nil => simp [hl, concatStrings]
  | cons a as => simp [hl]

/-- One step of the `cleanLists` fold, phrased through `listItemLine`. -/
theorem cleanListsStep_eq (ordered : Bool) (acc : String) (it : Nat × String) :
    cleanListsStep ordered acc it =
      match listItemLine ordered it with
      | none => acc
      | some line => acc ++ line := by
  unfold cleanListsStep listItemLine
  by_cases h : jsTrim it.2 = ""
  · simp [h]
  · simp [h, String.append_assoc]

/-- The `cleanLists` fold accumulates the concatenated item lines. -/
theorem cleanLists_fold (ordered : Bool) :
    ∀ (xs : List (Nat × String)) (acc : String),
      xs.foldl (cleanListsStep ordered) acc
      = acc ++ concatStrings (xs.filterMap (listItemLine ordered)) := by
  intro xs
  induction xs with
  | nil => intro acc; simp [concatStrings]
  | cons it rest ih =>
    intro acc
    rw [List.foldl_cons, List.filterMap_cons, cleanListsStep_eq]
    cases h : listItemLine ordered it with
    | none => simp only [h]; rw [ih]
    | some line =>
      simp only [h]
      rw [ih]
      simp [concatStrings, String.append_assoc]

/-- C9 counterexample: on an ordered list whose first item is empty, the
code numbers the remaining line `2.` (its position in the full item
list), while the claim requires consecutive numbering starting at `1.`. -/
theorem cleanLists_claim_cex :
    cleanListsRepl listCex = "\n\n2. a\n\n"
    ∧ cleanListsClaimed listCex = "\n\n1. a\n\n"
    ∧ cleanListsRepl listCex ≠ cleanListsClaimed listCex :=
  ⟨by decide, by decide, by decide⟩

/-- C9 as amended: the conversion emits one line per list item, skipping
items whose trimmed text is empty; unordered items are prefixed `"- "`,
and ordered items are numbered by their 1-based position in the full
item list, so skipped empty items leave gaps in the numbering. -/
theorem cleanLists_rule (l : HtmlList) :
    cleanListsRepl l = cleanListsAmended l := by
  unfold cleanListsRepl cleanListsAmended
  by_cases h : l.items.length = 0
  · rw [if_pos h, if_pos h]
  · rw [if_neg h, if_neg h, cleanLists_fold]

/-- C10: whenever `startDate` is an ISO date strictly later than the ISO
date `endDate`, `getFilingsByDateRange` returns the empty array — even
when the quarter sequence of `getQuartersInRange` is non-empty, because
the inclusive filing-date bounds exclude every index row. -/
theorem getFilingsByDateRange_inverted_empty (world : SecWorld)
    (cik formType startDate endDate : String)
    (h : jsDateLt (parseIsoDate endDate) (parseIsoDate startDate) = true) :
    getFilingsByDateRange world cik formType startDate endDate = [] := by
  rw [getFilingsByDateRange_eq_spec]
  unfold dateRangeSpec
  cases hsd : parseIsoDate startDate with
  | none => rw [hsd] at h; cases parseIsoDate endDate <;> simp [jsDateLt] at h
  | some s =>
    cases hed : parseIsoDate endDate with
    | none => rw [hed] at h; simp [jsDateLt] at h
    | some e =>
      rw [hsd, hed] at h
      simp only [jsDateLt, decide_eq_true_eq] at h
      have hrow : ∀ line,
          rangeRowFiling world cik formType (some s) (some e) line = none := by
        intro line
        unfold rangeRowFiling
        dsimp only
        rw [if_neg]
        rintro ⟨-, -, -, h1, h2⟩
        cases hd : parseIsoDate (jsTrim ((jsSplit '|' line).getD 3 "")) with
        | none => rw [hd] at h1; simp [jsDateLe] at h1
        | some x =>
          rw [hd] at h1 h2
          simp only [jsDateLe, decide_eq_true_eq] at h1 h2
          omega
      have hq : ∀ yq ∈ getQuartersInRange startDate endDate,
          (match world.quarterIndex (yq : Nat × Nat).1 yq.2 with
            | .error _ => ([] : List Filing)
            | .ok text =>
              ((jsSplit '\n' text).drop 11).filterMap
                (rangeRowFiling world cik formType (some s) (some e))) = [] := by
        intro yq _
        cases world.quarterIndex yq.1 yq.2 with
        | error e => rfl
        | ok text => simp [List.filterMap_eq_nil_iff, hrow]
      exact List.flatMap_eq_nil_iff.mpr hq

/-- Witness for C10: inverted bounds inside one calendar quarter, against
an index that would match under the swapped bounds: the quarter sequence
is the non-empty `[(2023, 4)]` and the result is empty. -/
theorem getFilingsByDateRange_inverted_empty_witness :
    jsDateLt (parseIsoDate "2023-11-01") (parseIsoDate "2023-11-05") = true
    ∧ getQuartersInRange "2023-11-05" "2023-11-01" = [(2023, 4)]
    ∧ getFilingsByDateRange wIdx "320193" "10-K" "2023-11-05" "2023-11-01" = [] :=
  ⟨by decide, by decide,
    getFilingsByDateRange_inverted_empty wIdx "320193" "10-K" "2023-11-05"
      "2023-11-01" (by decide)⟩

end SecApi
